import Mathlib

/-
Verification of the `vallenae.io` `Database` layer (src/vallenae/io/_database.py).

The Python module is shallowly embedded: SQLite values become `SQLVal`, the
SQLite file becomes a `Store` (a catalog of named tables), the `Database`
handle becomes a record of its attributes, and each method becomes a function
`DbState → Res α` returning either a value or the raised error together with
the state at that point.  CPython's `ast.literal_eval` (an external stdlib
function used by `Database.globalinfo`) is modelled by `literal_eval` below on
the fragment of inputs relevant here.
-/

/-! Part: Decimal printing and parsing (model of Python `str(int)` / int literals) -/

def dChar (d : Nat) : Char := Char.ofNat (48 + d)

def natToDigitsAux : Nat → Nat → List Char
  | 0, _ => []
  | fuel + 1, n => if n < 10 then [dChar n] else natToDigitsAux fuel (n / 10) ++ [dChar (n % 10)]

/-- Decimal digits of a natural number, most significant first (model of `str`). -/
def natToDigits (n : Nat) : List Char := natToDigitsAux (n + 1) n

/-- Numeric value of a digit list (base 10, most significant first). -/
def digitsVal (cs : List Char) : Nat := cs.foldl (fun a c => 10 * a + (c.toNat - 48)) 0

/-- Parse a non-empty all-digit character list as a natural number. -/
def parseDec (cs : List Char) : Option Nat :=
  if cs.isEmpty then none
  else if cs.all Char.isDigit then some (digitsVal cs) else none

/-- Decimal representation of an integer, as produced by Python `str`. -/
def intToDecimal (i : Int) : List Char :=
  if i < 0 then '-' :: natToDigits (-i).toNat else natToDigits i.toNat

/-- Parse an optionally minus-signed decimal integer. -/
def parseDecInt (cs : List Char) : Option Int :=
  match cs with
  | [] => none
  | c :: rest =>
    if c = '-' then (parseDec rest).map (fun n => -(Int.ofNat n))
    else (parseDec (c :: rest)).map Int.ofNat

/-! Part: Model of CPython `ast.literal_eval` -/

/-- Python values produced by literal decoding of global-info entries. -/
inductive PyVal where
  | int (i : Int)
  | str (s : String)
  | bool (b : Bool)
  | none
deriving DecidableEq, Repr

/-- Outcome of `ast.literal_eval`: a parsed literal, a `ValueError`
(valid expression that is not a literal), or a `SyntaxError`. -/
inductive EvalResult where
  | ok (v : PyVal)
  | notLiteral
  | parseFail
deriving DecidableEq, Repr

def isIdentChar (c : Char) : Bool := c.isAlphanum || c == '_'

/-- A Python identifier (ASCII fragment). -/
def isPyIdent (cs : List Char) : Bool :=
  match cs with
  | [] => false
  | c :: rest => (c.isAlpha || c == '_') && rest.all isIdentChar

/-- Python keywords other than the three literal ones; alone they are a
syntax error, not a `ValueError`. -/
def pyKeywords : List String :=
  ["and", "as", "assert", "break", "class", "continue", "def", "del", "elif",
   "else", "except", "finally", "for", "from", "global", "if", "import", "in",
   "is", "lambda", "nonlocal", "not", "or", "pass", "raise", "return", "try",
   "while", "with", "yield"]

/-- Content of a quoted Python string literal without inner quotes or escapes. -/
def strLitContent? (cs : List Char) : Option (List Char) :=
  match cs with
  | [] => Option.none
  | q :: rest =>
    if (q = '\'' ∨ q = '"') ∧ rest ≠ [] ∧ rest.getLast? = some q ∧
        (rest.dropLast.all fun c => ¬(c = q ∨ c = '\\')) then
      some rest.dropLast
    else Option.none

/-- Model of CPython `ast.literal_eval` on the fragment relevant to this
module: decimal integers, the keyword literals `True`/`False`/`None`, simple
quoted strings, bare identifiers (a `ValueError`: valid expression, not a
literal) and bare keywords (a `SyntaxError`).  Everything else is treated as a
`SyntaxError`; floats and container literals are outside the fragment, as are
leading-zero integer forms. -/
def literal_eval (s : String) : EvalResult :=
  match parseDecInt s.data with
  | some i => .ok (.int i)
  | Option.none =>
    if s = "True" then .ok (.bool true)
    else if s = "False" then .ok (.bool false)
    else if s = "None" then .ok PyVal.none
    else if pyKeywords.contains s then .parseFail
    else
      match strLitContent? s.data with
      | some inner => .ok (.str (String.mk inner))
      | Option.none => if isPyIdent s.data then .notLiteral else .parseFail

/-! Part: SQLite values and the store -/

/-- A value stored in an SQLite column (fragment: integers, text, NULL). -/
inductive SQLVal where
  | int (i : Int)
  | text (s : String)
  | null
deriving DecidableEq, Repr

/-- Python `str` applied to a value fetched from SQLite. -/
def sqlValToStr : SQLVal → String
  | .int i => String.mk (intToDecimal i)
  | .text s => s
  | .null => "None"

/-- A row of the main data table: its rowid and the value of its `TRAI`
column (`Option.none` models SQL NULL). -/
structure DataRow where
  rowid : Int
  trai : Option Int
deriving DecidableEq, Repr

/-- Shape of a table in the SQLite catalog: the main data table (column names
and rows), a key/value table (globalinfo), a parameter table (each row an
ordered column-name/value mapping), or some unrelated table. -/
inductive Table where
  | data (cols : List String) (rows : List DataRow)
  | kv (rows : List (String × SQLVal))
  | params (rows : List (List (String × SQLVal)))
  | other
deriving DecidableEq, Repr

/-- The SQLite file: a catalog of named tables. -/
structure Store where
  catalog : List (String × Table)
deriving DecidableEq, Repr

/-- Catalog lookup by table name. -/
def Store.table (st : Store) (name : String) : Option Table :=
  (st.catalog.find? fun p => p.1 = name).map Prod.snd

/-- Replace the table bound to `name` by `f` applied to it (names unchanged). -/
def Store.mapTable (st : Store) (name : String) (f : Table → Table) : Store :=
  ⟨st.catalog.map fun p => if p.1 = name then (p.1, f p.2) else p⟩

/-- SQL `UPDATE t SET Value = v WHERE Key == k` on a key/value table. -/
def setKv (rows : List (String × SQLVal)) (k : String) (v : SQLVal) :
    List (String × SQLVal) :=
  rows.map fun p => if p.1 = k then (p.1, v) else p

def applyKvSet (k : String) (v : SQLVal) : Table → Table
  | .kv rows => .kv (setKv rows k v)
  | t => t

def listMax1 (x : Int) (xs : List Int) : Int := xs.foldl max x

/-- SQL `MAX(rowid)` over the main data table (NULL on an empty table). -/
def maxRowid (rows : List DataRow) : SQLVal :=
  match rows.map DataRow.rowid with
  | [] => .null
  | y :: ys => .int (listMax1 y ys)

/-- SQL `MAX(TRAI)` over the main data table (NULLs ignored; NULL if none). -/
def maxTrai (rows : List DataRow) : SQLVal :=
  match rows.filterMap DataRow.trai with
  | [] => .null
  | y :: ys => .int (listMax1 y ys)

/-! Part: The Database handle and operation results -/

/-- Errors raised by the module (logical names from the design taxonomy;
in Python most are `ValueError`, `notConnected` is `RuntimeError`,
`openFailed`/`queryFailed` are `sqlite3` errors, `decodeError` is the
`ValueError` escaping `literal_eval`, `keyError` is `row.pop("ID")` on a row
without an `ID` column). -/
inductive DbError where
  | invalidFormat
  | openFailed
  | schemaError
  | readOnlyViolation
  | notConnected
  | queryFailed
  | notFound (id : Int) (table : String)
  | decodeError
  | keyError
deriving DecidableEq, Repr

/-- The `Database` handle's attributes (`pre` is the source's table-name
stem attribute, e.g. `"pri"`). -/
structure Database where
  filename : String
  readonly : Bool
  pre : String
  connected : Bool
deriving DecidableEq, Repr

/-- Name of the mandatory main data table. -/
def Database.table_main (db : Database) : String := db.pre ++ "_data"

/-- Name of the global key/value table. -/
def Database.table_globalinfo (db : Database) : String := db.pre ++ "_globalinfo"

/-- Name of the parameter table. -/
def Database.table_params (db : Database) : String := db.pre ++ "_params"

/-- A handle together with the store it is connected to. -/
structure DbState where
  db : Database
  store : Store
deriving DecidableEq, Repr

/-- Result of running a method: a value, or the raised error; both carry the
state as it stands when the method returns or raises. -/
inductive Res (α : Type) where
  | ok (a : α) (s : DbState)
  | err (e : DbError) (s : DbState)
deriving DecidableEq, Repr

/-! Part: Methods of `Database` -/

/-- Model of `Database.connection`: raises `NotConnected` once the handle is closed. -/
def Database.connection_ok (s : DbState) : Bool := s.db.connected

/-- Model of `Database.rows`: `SELECT COUNT(*) FROM <pre>_data`. -/
def Database.rows (s : DbState) : Res Int :=
  if s.db.connected then
    match s.store.table s.db.table_main with
    | some (.data _ rows) => .ok (rows.length : Int) s
    | _ => .err .queryFailed s
  else .err .notConnected s

/-- Model of `Database.columns`: column names of the main data table via a zero-row
projection. -/
def Database.columns (s : DbState) : Res (List String) :=
  if s.db.connected then
    match s.store.table s.db.table_main with
    | some (.data cols _) => .ok cols s
    | _ => .err .queryFailed s
  else .err .notConnected s

/-- Model of `Database.tables`: names of all tables in the catalog. -/
def Database.tables (s : DbState) : Res (List String) :=
  if s.db.connected then .ok (s.store.catalog.map Prod.fst) s
  else .err .notConnected s

/-- The helper `try_convert_string` from `Database.globalinfo`: `literal_eval`, catching
ONLY `SyntaxError` (a `ValueError` escapes to the caller). -/
def try_convert_string (value : String) : Except DbError PyVal :=
  match literal_eval value with
  | .ok v => .ok v
  | .parseFail => .ok (.str value)
  | .notLiteral => .error .decodeError

/-- Decode all fetched key/value rows (the dict comprehension in
`Database.globalinfo`); an escaping `ValueError` aborts the whole read. -/
def decodeRows : List (String × SQLVal) → Except DbError (List (String × PyVal))
  | [] => .ok []
  | (k, v) :: rest =>
    match try_convert_string (sqlValToStr v) with
    | .error e => .error e
    | .ok pv =>
      match decodeRows rest with
      | .error e => .error e
      | .ok tail => .ok ((k, pv) :: tail)

/-- Python dict access on an association list built in order (later duplicate
keys override earlier ones). -/
def pyDictGet (l : List (String × PyVal)) (k : String) : Option PyVal :=
  (l.reverse.find? fun p => p.1 = k).map Prod.snd

/-- Model of `Database.globalinfo`: `SELECT Key, Value FROM <pre>_globalinfo`, each
value passed through `str` and `try_convert_string`. -/
def Database.globalinfo (s : DbState) : Res (List (String × PyVal)) :=
  if s.db.connected then
    match s.store.table s.db.table_globalinfo with
    | some (.kv rows) =>
      match decodeRows rows with
      | .error e => .err e s
      | .ok decoded => .ok decoded s
    | _ => .err .queryFailed s
  else .err .notConnected s

/-- One guarded UPDATE block of `_update_globalinfo`: if `key` is among the
current global-info keys, run
`UPDATE <pre>_globalinfo SET Value = (SELECT agg FROM <pre>_data) WHERE Key == key`. -/
def updateKeyFromData (key : String) (agg : List DataRow → SQLVal)
    (keys : List String) (t : DbState) : Res Unit :=
  if keys.contains key then
    match t.store.table t.db.table_main with
    | some (.data _ rows) =>
      Res.ok () ⟨t.db, t.store.mapTable t.db.table_globalinfo
        (applyKvSet key (agg rows))⟩
    | _ => Res.err .queryFailed t
  else Res.ok () t

/-- Model of `Database._update_globalinfo` (decorated with `require_write_access`):
reads the current keys, then runs one SQL UPDATE per well-known key present,
setting `ValidSets` to `MAX(rowid)` and `TRAI` to `MAX(TRAI)` of the main
data table. -/
def Database.update_globalinfo (s : DbState) : Res Unit :=
  if s.db.readonly then .err .readOnlyViolation s
  else
    match Database.globalinfo s with
    | .err e s' => .err e s'
    | .ok decoded _ =>
      let keys := decoded.map Prod.fst
      match updateKeyFromData "ValidSets" maxRowid keys s with
      | .err e s' => .err e s'
      | .ok _ s₁ => updateKeyFromData "TRAI" maxTrai keys s₁

/-- Build the parameter dictionary: `row.pop("ID")` keys each row by its `ID`
value (raising `KeyError` if absent, modelled by `Option.none`). -/
def buildParams :
    List (List (String × SQLVal)) → Option (List (SQLVal × List (String × SQLVal)))
  | [] => some []
  | r :: rest =>
    match r.find? (fun p => p.1 = "ID") with
    | Option.none => Option.none
    | some p =>
      match buildParams rest with
      | Option.none => Option.none
      | some tail => some ((p.2, r.eraseP fun q => q.1 = "ID") :: tail)

/-- Python dict access for the parameter dictionary (later duplicates win). -/
def paramDictGet (l : List (SQLVal × List (String × SQLVal))) (k : SQLVal) :
    Option (List (String × SQLVal)) :=
  (l.reverse.find? fun p => p.1 = k).map Prod.snd

/-- Model of `Database._parameter_table`: full scan of `<pre>_params` into a dict. -/
def Database.parameter_table (s : DbState) :
    Res (List (SQLVal × List (String × SQLVal))) :=
  if s.db.connected then
    match s.store.table s.db.table_params with
    | some (.params rows) =>
      match buildParams rows with
      | some tbl => .ok tbl s
      | Option.none => .err .keyError s
    | _ => .err .queryFailed s
  else .err .notConnected s

/-- Model of `Database._parameter`: dictionary lookup, re-raising a missing key as the
`NotFound` error carrying the id and the source table name. -/
def Database.parameter (param_id : Int) (s : DbState) :
    Res (List (String × SQLVal)) :=
  match Database.parameter_table s with
  | .err e s' => .err e s'
  | .ok tbl s' =>
    match paramDictGet tbl (.int param_id) with
    | some fields => .ok fields s'
    | Option.none => .err (.notFound param_id s.db.table_params) s'

/-- Model of `Database.close`: no-op when already closed; on a write handle first
`_update_globalinfo` (whose exception would propagate, leaving the handle
connected), then commit, then physical close and `connected = False`. -/
def Database.close (s : DbState) : Res Unit :=
  if s.db.connected then
    if s.db.readonly then
      .ok () ⟨{ s.db with connected := false }, s.store⟩
    else
      match Database.update_globalinfo s with
      | .err e s' => .err e s'
      | .ok _ s' => .ok () ⟨{ s'.db with connected := false }, s'.store⟩
  else .ok () s

/-! Part: Construction (`Database.__init__`) -/

/-- Lowercasing as Python `str.lower` on ASCII. -/
def lowerStr (s : String) : String := String.mk (s.data.map Char.toLower)

/-- Final path component (model of `pathlib.PurePath.name`, POSIX rules). -/
def lastComponent (cs : List Char) : List Char :=
  (cs.reverse.takeWhile fun c => c ≠ '/').reverse

/-- Model of `Path(filename).suffix[1:]`: the part of the final component after its
last dot, empty when the name has no dot, starts with its only dot, or ends
in a dot (the `pathlib` suffix rule). -/
def fileExt (fn : String) : String :=
  let name := lastComponent fn.data
  let tail := (name.reverse.takeWhile fun c => c ≠ '.').reverse
  if 0 < tail.length ∧ tail.length + 1 < name.length then String.mk tail else ""

/-- The extension guard of `__init__`: vacuously true when no extension is
required, else a case-insensitive comparison. -/
def extOk (fn : String) (required_file_ext : Option String) : Bool :=
  match required_file_ext with
  | Option.none => true
  | some ext => lowerStr (fileExt fn) = lowerStr ext

/-- SQLite URI open (external engine): modes `"ro"` and `"rw"` require an
existing database file; only mode `"rwc"` would create a fresh one. -/
def sqliteConnect (mode : String) (fs : Option Store) : Option Store :=
  match fs with
  | some st => some st
  | Option.none => if mode = "rwc" then some ⟨[]⟩ else Option.none

/-- Outcome of `__init__`: a connected state, or the raised error together
with the physical-connection and `_connected`-flag state at the raise. -/
inductive InitOutcome where
  | ok (s : DbState)
  | err (e : DbError) (connOpen : Bool) (connectedFlag : Bool)
deriving DecidableEq, Repr

/-- Model of `Database.__init__`: extension check, then `sqlite3.connect` with URI mode
`"ro"`/`"rw"`, then (write mode) pragmas, then the main-table existence check —
which raises with the connection still open and the flag still `True`.
`fs` is the file system's view of the path (`Option.none` = no file). -/
def Database.init (filename pre : String) (readonly : Bool)
    (required_file_ext : Option String) (fs : Option Store) : InitOutcome :=
  if extOk filename required_file_ext then
    match sqliteConnect (if readonly then "ro" else "rw") fs with
    | Option.none => .err .openFailed false false
    | some store =>
      if (store.catalog.map Prod.fst).contains (pre ++ "_data") then
        .ok ⟨⟨filename, readonly, pre, true⟩, store⟩
      else .err .schemaError true true
  else .err .invalidFormat false false

/-! Part: Helper lemmas on `close` -/

/-- Closing an already-closed handle is the identity no-op. -/
theorem close_not_connected_self (s : DbState) (h : s.db.connected = false) :
    Database.close s = .ok () s := by
  simp [Database.close, h]

/-- Whenever `close` returns normally, the resulting connected flag is false. -/
theorem close_ok_flag (s s' : DbState) (h : Database.close s = .ok () s') :
    s'.db.connected = false := by
  unfold Database.close at h
  by_cases hc : s.db.connected = true
  · rw [hc] at h
    by_cases hro : s.db.readonly = true
    · simp [hro] at h
      subst h
      rfl
    · simp only [Bool.not_eq_true] at hro
      simp [hro] at h
      cases hu : Database.update_globalinfo s with
      | ok a t => rw [hu] at h; simp at h; subst h; rfl
      | err e t => rw [hu] at h; simp at h
  · simp only [Bool.not_eq_true] at hc
    simp [hc] at h
    subst h
    exact hc

/-! Part: Demonstration store shared by witnesses -/

/-- A small well-formed pridb-like store used to instantiate witnesses. -/
def demoStore : Store :=
  ⟨[("pr_data", .data ["SetID", "TRAI"] [⟨1, some 1⟩, ⟨2, Option.none⟩]),
    ("pr_globalinfo", .kv [("ValidSets", .int 2), ("TRAI", .int 1)]),
    ("pr_params", .params [[("ID", .int 1), ("Gain", .int 4)]])]⟩

/-! Part: Claim theorems -/

/-- Claim C1: the spec says every stored text decodes by best-effort literal
parsing, falling back to the unchanged string on any parse failure and never
raising; in the code `try_convert_string` catches only `SyntaxError`, while
`ast.literal_eval("abc")` raises `ValueError` — so reading a global-info table
that stores `"abc"` raises instead of yielding the string `"abc"`, although
`"123"` does decode to the integer `123`. -/
theorem globalinfo_abc_raises :
    try_convert_string "123" = .ok (.int 123) ∧
    try_convert_string "abc" = .error .decodeError ∧
    Database.globalinfo ⟨⟨"t.pridb", true, "pr", true⟩,
        ⟨[("pr_data", .data ["SetID"] []),
          ("pr_globalinfo", .kv [("A", .text "123"), ("B", .text "abc")])]⟩⟩ =
      .err .decodeError ⟨⟨"t.pridb", true, "pr", true⟩,
        ⟨[("pr_data", .data ["SetID"] []),
          ("pr_globalinfo", .kv [("A", .text "123"), ("B", .text "abc")])]⟩⟩ :=
  ⟨rfl, rfl, by decide⟩

/-- Claim C5: on a read-only handle the mutating `_update_globalinfo` fails
with `ReadOnlyViolation` before touching the store: the returned state is the
input state, unchanged. -/
theorem update_globalinfo_readonly_violation (s : DbState)
    (h : s.db.readonly = true) :
    Database.update_globalinfo s = .err .readOnlyViolation s := by
  simp [Database.update_globalinfo, h]

theorem update_globalinfo_readonly_violation_witness :
    (⟨⟨"t.pridb", true, "pr", true⟩, demoStore⟩ : DbState).db.readonly = true ∧
    Database.update_globalinfo ⟨⟨"t.pridb", true, "pr", true⟩, demoStore⟩ =
      .err .readOnlyViolation ⟨⟨"t.pridb", true, "pr", true⟩, demoStore⟩ :=
  ⟨rfl, update_globalinfo_readonly_violation ⟨⟨"t.pridb", true, "pr", true⟩, demoStore⟩ rfl⟩

/-- Claim C6: `close` is idempotent — after any successful close the connected
flag is false and a further `close` raises nothing and returns the state
unchanged (no recompute, commit or physical close happens again). -/
theorem close_idempotent (s s' : DbState) (h : Database.close s = .ok () s') :
    s'.db.connected = false ∧ Database.close s' = .ok () s' :=
  have hf := close_ok_flag s s' h
  ⟨hf, close_not_connected_self s' hf⟩

theorem close_idempotent_witness :
    (⟨⟨"t.pridb", true, "pr", false⟩, demoStore⟩ : DbState).db.connected = false ∧
    Database.close ⟨⟨"t.pridb", true, "pr", false⟩, demoStore⟩ =
      .ok () ⟨⟨"t.pridb", true, "pr", false⟩, demoStore⟩ :=
  close_idempotent ⟨⟨"t.pridb", true, "pr", true⟩, demoStore⟩
    ⟨⟨"t.pridb", true, "pr", false⟩, demoStore⟩ (by decide)

/-- Claim C7: once a handle has been closed, every operation other than
`close` — `rows`, `columns`, `tables`, `globalinfo` and the parameter
accessors — fails with `NotConnected`, and the connected flag reads false. -/
theorem ops_after_close_fail (s₀ s : DbState) (pid : Int)
    (h : Database.close s₀ = .ok () s) :
    s.db.connected = false ∧
    Database.rows s = .err .notConnected s ∧
    Database.columns s = .err .notConnected s ∧
    Database.tables s = .err .notConnected s ∧
    Database.globalinfo s = .err .notConnected s ∧
    Database.parameter_table s = .err .notConnected s ∧
    Database.parameter pid s = .err .notConnected s := by
  have hf := close_ok_flag s₀ s h
  refine ⟨hf, ?_, ?_, ?_, ?_, ?_, ?_⟩ <;>
    simp [Database.rows, Database.columns, Database.tables, Database.globalinfo,
      Database.parameter, Database.parameter_table, hf]

theorem ops_after_close_fail_witness :
    ((⟨⟨"t.pridb", true, "pr", false⟩, demoStore⟩ : DbState).db.connected = false ∧
    Database.rows ⟨⟨"t.pridb", true, "pr", false⟩, demoStore⟩ =
      .err .notConnected ⟨⟨"t.pridb", true, "pr", false⟩, demoStore⟩ ∧
    Database.columns ⟨⟨"t.pridb", true, "pr", false⟩, demoStore⟩ =
      .err .notConnected ⟨⟨"t.pridb", true, "pr", false⟩, demoStore⟩ ∧
    Database.tables ⟨⟨"t.pridb", true, "pr", false⟩, demoStore⟩ =
      .err .notConnected ⟨⟨"t.pridb", true, "pr", false⟩, demoStore⟩ ∧
    Database.globalinfo ⟨⟨"t.pridb", true, "pr", false⟩, demoStore⟩ =
      .err .notConnected ⟨⟨"t.pridb", true, "pr", false⟩, demoStore⟩ ∧
    Database.parameter_table ⟨⟨"t.pridb", true, "pr", false⟩, demoStore⟩ =
      .err .notConnected ⟨⟨"t.pridb", true, "pr", false⟩, demoStore⟩ ∧
    Database.parameter 1 ⟨⟨"t.pridb", true, "pr", false⟩, demoStore⟩ =
      .err .notConnected ⟨⟨"t.pridb", true, "pr", false⟩, demoStore⟩) :=
  ops_after_close_fail ⟨⟨"t.pridb", true, "pr", true⟩, demoStore⟩
    ⟨⟨"t.pridb", true, "pr", false⟩, demoStore⟩ 1 (by decide)

/-- Claim C2 counterexample: constructing on a store lacking the main data
table does fail with `SchemaError`, but the outcome records the connection
still physically open and the connected flag still true — not the closed
handle the claim requires. -/
theorem init_missing_main_half_open :
    Database.init "t.pridb" "pr" true (some "pridb") (some ⟨[("x", Table.other)]⟩) =
      .err .schemaError true true ∧
    ¬ (Database.init "t.pridb" "pr" true (some "pridb") (some ⟨[("x", Table.other)]⟩) =
      .err .schemaError false false) := by
  decide

/-- Claim C2 amended: for every store whose catalog lacks `<pre>_data` (with
the extension check passing), construction fails with `SchemaError`, but at
the moment the error is raised the connection is still open and the connected
flag still true; cleanup is deferred to the finalizer rather than performed by
construction, so the handle momentarily is half-open. -/
theorem init_missing_main_schemaError (fn pre : String) (ro : Bool)
    (ext : Option String) (st : Store)
    (hext : extOk fn ext = true)
    (hmain : (st.catalog.map Prod.fst).contains (pre ++ "_data") = false) :
    Database.init fn pre ro ext (some st) = .err .schemaError true true := by
  have hmain' : ∀ x : Table, (pre ++ "_data", x) ∉ st.catalog := by
    simpa using hmain
  simp [Database.init, hext, sqliteConnect, hmain']

theorem init_missing_main_schemaError_witness :
    extOk "t.pridb" (some "pridb") = true ∧
    ((⟨[("x", Table.other)]⟩ : Store).catalog.map Prod.fst).contains ("pr" ++ "_data") = false ∧
    Database.init "t.pridb" "pr" true (some "pridb") (some ⟨[("x", Table.other)]⟩) =
      .err .schemaError true true :=
  ⟨by decide, by decide,
    init_missing_main_schemaError "t.pridb" "pr" true (some "pridb")
      ⟨[("x", Table.other)]⟩ (by decide) (by decide)⟩

/-- Claim C8: when the filename's extension differs from the required one
under case-insensitive comparison, construction fails with `InvalidFormat`
before any open attempt (for every state of the file system, with the
connection never opened); when they agree up to case, `InvalidFormat` is never
raised. -/
theorem extension_check (fn ext pre : String) (ro : Bool) (fs : Option Store) :
    (lowerStr (fileExt fn) ≠ lowerStr ext →
      Database.init fn pre ro (some ext) fs = .err .invalidFormat false false) ∧
    (lowerStr (fileExt fn) = lowerStr ext →
      ∀ o₁ o₂ : Bool, Database.init fn pre ro (some ext) fs ≠ .err .invalidFormat o₁ o₂) := by
  constructor
  · intro h
    have hx : extOk fn (some ext) = false := by
      simp [extOk]
      exact h
    simp [Database.init, hx]
  · intro h o₁ o₂
    have hx : extOk fn (some ext) = true := by
      simp [extOk]
      exact h
    simp only [Database.init, hx, if_true]
    cases hs : sqliteConnect (if ro then "ro" else "rw") fs with
    | none => simp
    | some store =>
      simp only []
      split <;> simp

theorem extension_check_witness :
    (lowerStr (fileExt "t.tradb") ≠ lowerStr "pridb" ∧
     Database.init "t.tradb" "pr" true (some "pridb") Option.none =
       .err .invalidFormat false false) ∧
    (lowerStr (fileExt "t.PriDB") = lowerStr "pridb" ∧
     ∀ o₁ o₂ : Bool, Database.init "t.PriDB" "pr" true (some "pridb") Option.none ≠
       .err .invalidFormat o₁ o₂) :=
  ⟨⟨by decide, (extension_check "t.tradb" "pridb" "pr" true Option.none).1 (by decide)⟩,
   ⟨by decide, (extension_check "t.PriDB" "pridb" "pr" true Option.none).2 (by decide)⟩⟩

/-- Claim C10: construction opens with URI mode `"ro"` when read-only and
`"rw"` otherwise, and both modes refuse to create a missing file, so on a
non-existent path construction fails with `OpenFailed` for either value of
the read-only flag (provided the extension check passes). -/
theorem init_no_file_openFailed (fn pre : String) (ro : Bool) (ext : Option String)
    (hext : extOk fn ext = true) :
    sqliteConnect (if ro then "ro" else "rw") Option.none = Option.none ∧
    Database.init fn pre ro ext Option.none = .err .openFailed false false := by
  constructor
  · cases ro <;> rfl
  · cases ro <;> simp [Database.init, hext, sqliteConnect]

theorem init_no_file_openFailed_witness :
    extOk "t.pridb" (some "pridb") = true ∧
    (sqliteConnect (if false then "ro" else "rw") Option.none = Option.none ∧
     Database.init "t.pridb" "pr" false (some "pridb") Option.none =
       .err .openFailed false false) :=
  ⟨by decide, init_no_file_openFailed "t.pridb" "pr" false (some "pridb") (by decide)⟩

/-! Part: Decimal round-trip lemmas -/

theorem dChar_fin (d : Fin 10) :
    (dChar d.1).isDigit = true ∧ (dChar d.1).toNat - 48 = d.1 := by
  revert d
  decide

theorem dChar_spec (d : Nat) (h : d < 10) :
    (dChar d).isDigit = true ∧ (dChar d).toNat - 48 = d :=
  dChar_fin ⟨d, h⟩

theorem digitsVal_append (xs : List Char) (c : Char) :
    digitsVal (xs ++ [c]) = 10 * digitsVal xs + (c.toNat - 48) := by
  simp [digitsVal, List.foldl_append]

theorem natToDigitsAux_spec (fuel : Nat) : ∀ n : Nat, n < fuel →
    natToDigitsAux fuel n ≠ [] ∧
    (natToDigitsAux fuel n).all Char.isDigit = true ∧
    digitsVal (natToDigitsAux fuel n) = n := by
  induction fuel with
  | zero => intro n h; omega
  | succ fuel ih =>
    intro n h
    rw [natToDigitsAux]
    by_cases h10 : n < 10
    · simp only [h10, if_true]
      refine ⟨by simp, ?_, ?_⟩
      · simp [List.all_cons, (dChar_spec n h10).1]
      · have hd := (dChar_spec n h10).2
        simp [digitsVal]
        omega
    · have hlt : n / 10 < fuel := by omega
      obtain ⟨ih1, ih2, ih3⟩ := ih (n / 10) hlt
      have hm : n % 10 < 10 := Nat.mod_lt _ (by omega)
      simp only [h10, if_false]
      refine ⟨by simp, ?_, ?_⟩
      · rw [List.all_append]
        simp [ih2, List.all_cons, (dChar_spec (n % 10) hm).1]
      · rw [digitsVal_append, ih3, (dChar_spec (n % 10) hm).2]
        omega

theorem natToDigits_spec (n : Nat) :
    natToDigits n ≠ [] ∧
    (natToDigits n).all Char.isDigit = true ∧
    digitsVal (natToDigits n) = n :=
  natToDigitsAux_spec (n + 1) n (by omega)

theorem parseDec_natToDigits (n : Nat) : parseDec (natToDigits n) = some n := by
  obtain ⟨h1, h2, h3⟩ := natToDigits_spec n
  rw [parseDec]
  have he : (natToDigits n).isEmpty = false := by
    cases hcs : natToDigits n with
    | nil => exact absurd hcs h1
    | cons c cs => rfl
  rw [he]
  simp [h2, h3]

theorem parseDecInt_intToDecimal (i : Int) : parseDecInt (intToDecimal i) = some i := by
  by_cases hneg : i < 0
  · rw [intToDecimal, if_pos hneg]
    show Option.map (fun n => -(Int.ofNat n)) (parseDec (natToDigits (-i).toNat)) = some i
    rw [parseDec_natToDigits, Option.map_some', Option.some_inj]
    simp only [Int.ofNat_eq_natCast]
    omega
  · rw [intToDecimal, if_neg hneg]
    obtain ⟨h1, h2, _⟩ := natToDigits_spec i.toNat
    cases hcs : natToDigits i.toNat with
    | nil => exact absurd hcs h1
    | cons c cs =>
      have hcd : c.isDigit = true := by
        rw [hcs, List.all_cons] at h2
        exact (Bool.and_eq_true_iff.mp h2).1
      have hcne : ¬(c = '-') := by
        intro he
        rw [he] at hcd
        exact absurd hcd (by decide)
      rw [parseDecInt]
      rw [if_neg hcne]
      rw [← hcs, parseDec_natToDigits, Option.map_some']
      simp only [Int.ofNat_eq_natCast]
      congr 1
      omega

theorem literal_eval_intToDecimal (i : Int) :
    literal_eval (String.mk (intToDecimal i)) = .ok (.int i) := by
  have h : parseDecInt (String.mk (intToDecimal i)).data = some i :=
    parseDecInt_intToDecimal i
  simp [literal_eval, h]

theorem try_convert_int (i : Int) :
    try_convert_string (sqlValToStr (.int i)) = .ok (.int i) := by
  simp [try_convert_string, sqlValToStr, literal_eval_intToDecimal]

theorem try_convert_null : try_convert_string (sqlValToStr .null) = .ok PyVal.none := by
  rfl

/-! Part: Lemmas about decoding, key/value updates and catalog lookups -/

theorem decodeRows_keys (l : List (String × SQLVal)) (dl : List (String × PyVal))
    (h : decodeRows l = .ok dl) : dl.map Prod.fst = l.map Prod.fst := by
  induction l generalizing dl with
  | nil =>
    simp only [decodeRows] at h
    cases h
    rfl
  | cons p rest ih =>
    obtain ⟨k, v⟩ := p
    unfold decodeRows at h
    cases h1 : try_convert_string (sqlValToStr v) with
    | error e => rw [h1] at h; cases h
    | ok pv =>
      rw [h1] at h
      cases h2 : decodeRows rest with
      | error e => rw [h2] at h; cases h
      | ok tail =>
        rw [h2] at h
        cases h
        simp [ih tail h2]

theorem decodeRows_val (l : List (String × SQLVal)) (dl : List (String × PyVal))
    (h : decodeRows l = .ok dl) :
    ∀ q ∈ dl, ∃ p ∈ l, p.1 = q.1 ∧ try_convert_string (sqlValToStr p.2) = .ok q.2 := by
  induction l generalizing dl with
  | nil =>
    simp only [decodeRows] at h
    cases h
    intro q hq
    cases hq
  | cons p rest ih =>
    obtain ⟨k, v⟩ := p
    unfold decodeRows at h
    cases h1 : try_convert_string (sqlValToStr v) with
    | error e => rw [h1] at h; cases h
    | ok pv =>
      rw [h1] at h
      cases h2 : decodeRows rest with
      | error e => rw [h2] at h; cases h
      | ok tail =>
        rw [h2] at h
        cases h
        intro q hq
        rcases List.mem_cons.mp hq with hq | hq
        · exact ⟨(k, v), List.mem_cons_self _ _, by rw [hq], by rw [hq]; exact h1⟩
        · obtain ⟨p', hp', h3, h4⟩ := ih tail h2 q hq
          exact ⟨p', List.mem_cons_of_mem _ hp', h3, h4⟩

theorem decodeRows_ok_of_pointwise (l : List (String × SQLVal))
    (h : ∀ p ∈ l, ∃ v, try_convert_string (sqlValToStr p.2) = .ok v) :
    ∃ dl, decodeRows l = .ok dl := by
  induction l with
  | nil => exact ⟨[], rfl⟩
  | cons p rest ih =>
    obtain ⟨v, hv⟩ := h p (List.mem_cons_self _ _)
    obtain ⟨tail, htail⟩ := ih fun q hq => h q (List.mem_cons_of_mem _ hq)
    refine ⟨(p.1, v) :: tail, ?_⟩
    show decodeRows ((p.1, p.2) :: rest) = _
    unfold decodeRows
    rw [hv, htail]

theorem pyDictGet_of_all (dl : List (String × PyVal)) (k : String) (v : PyVal)
    (hmem : k ∈ dl.map Prod.fst)
    (hall : ∀ q ∈ dl, q.1 = k → q.2 = v) :
    pyDictGet dl k = some v := by
  unfold pyDictGet
  cases hf : dl.reverse.find? (fun p => p.1 = k) with
  | none =>
    rw [List.find?_eq_none] at hf
    obtain ⟨q, hq, hq1⟩ := List.mem_map.mp hmem
    have hq' : q ∈ dl.reverse := List.mem_reverse.mpr hq
    have := hf q hq'
    simp [hq1] at this
  | some q =>
    have h1 : q.1 = k := by
      have := List.find?_some hf
      simpa using this
    have h2 : q ∈ dl := List.mem_reverse.mp (List.mem_of_find?_eq_some hf)
    simp [hall q h2 h1]

theorem setKv_keys (l : List (String × SQLVal)) (k : String) (v : SQLVal) :
    (setKv l k v).map Prod.fst = l.map Prod.fst := by
  unfold setKv
  rw [List.map_map]
  apply List.map_congr_left
  intro p _
  by_cases h : p.1 = k <;> simp [h]

theorem setKv_getElem (l : List (String × SQLVal)) (k : String) (v : SQLVal)
    (i : Nat) (p : String × SQLVal) (h : l[i]? = some p)
    (hne : p.1 ≠ k) : (setKv l k v)[i]? = some p := by
  unfold setKv
  rw [List.getElem?_map, h]
  simp [hne]

theorem setKv_val (l : List (String × SQLVal)) (k : String) (v : SQLVal) :
    ∀ p ∈ setKv l k v, p.1 = k → p.2 = v := by
  intro p hp hk
  obtain ⟨q, hq, hqe⟩ := List.mem_map.mp hp
  by_cases h : q.1 = k
  · rw [if_pos h] at hqe
    rw [← hqe]
  · rw [if_neg h] at hqe
    rw [← hqe] at hk
    exact absurd hk h

theorem setKv_mem_of_ne (l : List (String × SQLVal)) (k : String) (v : SQLVal) :
    ∀ p ∈ setKv l k v, p.1 ≠ k → p ∈ l := by
  intro p hp hk
  obtain ⟨q, hq, hqe⟩ := List.mem_map.mp hp
  by_cases h : q.1 = k
  · rw [if_pos h] at hqe
    rw [← hqe] at hk
    exact absurd h hk
  · rw [if_neg h] at hqe
    rw [← hqe]
    exact hq

theorem find?_mapEntry (l : List (String × Table)) (n m : String) (f : Table → Table) :
    ((l.map fun p => if p.1 = n then (p.1, f p.2) else p).find? fun p => p.1 = m) =
      if m = n then (l.find? fun p => p.1 = m).map (fun p => (p.1, f p.2))
      else l.find? fun p => p.1 = m := by
  induction l with
  | nil => by_cases h : m = n <;> simp [h]
  | cons p rest ih =>
    simp only [List.map_cons]
    by_cases h1 : p.1 = n
    · rw [if_pos h1]
      by_cases h2 : p.1 = m
      · rw [List.find?_cons_of_pos _ (by simp [h2]), List.find?_cons_of_pos _ (by simp [h2])]
        have : m = n := by rw [← h2, h1]
        simp [this]
      · rw [List.find?_cons_of_neg _ (by simp [h2]), List.find?_cons_of_neg _ (by simp [h2])]
        exact ih
    · rw [if_neg h1]
      by_cases h2 : p.1 = m
      · rw [List.find?_cons_of_pos _ (by simp [h2]), List.find?_cons_of_pos _ (by simp [h2])]
        have : ¬ m = n := by rw [← h2]; exact h1
        simp [this]
      · rw [List.find?_cons_of_neg _ (by simp [h2]), List.find?_cons_of_neg _ (by simp [h2])]
        exact ih

theorem Store.table_mapTable (st : Store) (n m : String) (f : Table → Table) :
    (st.mapTable n f).table m =
      if m = n then (st.table m).map f else st.table m := by
  unfold Store.mapTable Store.table
  rw [find?_mapEntry]
  by_cases h : m = n
  · simp [h, Option.map_map]
    rfl
  · simp [h]

theorem mapTable_names (st : Store) (n : String) (f : Table → Table) :
    (st.mapTable n f).catalog.map Prod.fst = st.catalog.map Prod.fst := by
  unfold Store.mapTable
  rw [List.map_map]
  apply List.map_congr_left
  intro p _
  by_cases h : p.1 = n <;> simp [h]

theorem contains_of_table_some (st : Store) (name : String) (t : Table)
    (h : st.table name = some t) :
    (st.catalog.map Prod.fst).contains name = true := by
  unfold Store.table at h
  cases hf : st.catalog.find? (fun p => p.1 = name) with
  | none => rw [hf] at h; cases h
  | some q =>
    have h1 : q.1 = name := by
      have := List.find?_some hf
      simpa using this
    have h2 : q ∈ st.catalog := List.mem_of_find?_eq_some hf
    have : name ∈ st.catalog.map Prod.fst := by
      rw [← h1]
      exact List.mem_map_of_mem Prod.fst h2
    exact List.elem_eq_true_of_mem this

theorem append_ne_of_data_ne (p a b : String) (hab : a.data ≠ b.data) :
    p ++ a ≠ p ++ b := by
  intro h
  apply hab
  have hd : p.data ++ a.data = p.data ++ b.data := congrArg String.data h
  exact List.append_cancel_left hd

theorem table_main_ne_globalinfo (db : Database) :
    db.table_main ≠ db.table_globalinfo :=
  append_ne_of_data_ne db.pre "_data" "_globalinfo" (by decide)

/-! Part: Running `_update_globalinfo` -/

theorem globalinfo_run (s : DbState) (kvrows : List (String × SQLVal))
    (dl : List (String × PyVal)) (hconn : s.db.connected = true)
    (hgi : s.store.table s.db.table_globalinfo = some (.kv kvrows))
    (hdec : decodeRows kvrows = .ok dl) :
    Database.globalinfo s = .ok dl s := by
  simp [Database.globalinfo, hconn, hgi, hdec]

theorem updateKeyFromData_pos (key : String) (agg : List DataRow → SQLVal)
    (keys : List String) (t : DbState) (cols : List String) (rows : List DataRow)
    (hc : keys.contains key = true)
    (hmain : t.store.table t.db.table_main = some (.data cols rows)) :
    updateKeyFromData key agg keys t =
      .ok () ⟨t.db, t.store.mapTable t.db.table_globalinfo (applyKvSet key (agg rows))⟩ := by
  unfold updateKeyFromData
  rw [hc]
  simp [hmain]

theorem updateKeyFromData_neg (key : String) (agg : List DataRow → SQLVal)
    (keys : List String) (t : DbState) (hc : keys.contains key = false) :
    updateKeyFromData key agg keys t = .ok () t := by
  unfold updateKeyFromData
  rw [hc]
  simp

theorem update_globalinfo_run (s : DbState) (dl : List (String × PyVal))
    (hro : s.db.readonly = false)
    (hglob : Database.globalinfo s = .ok dl s) :
    Database.update_globalinfo s =
      match updateKeyFromData "ValidSets" maxRowid (dl.map Prod.fst) s with
      | .err e s' => .err e s'
      | .ok _ s₁ => updateKeyFromData "TRAI" maxTrai (dl.map Prod.fst) s₁ := by
  unfold Database.update_globalinfo
  rw [hro]
  simp only [Bool.false_eq_true, if_false, hglob]

theorem update_globalinfo_run_ok (s t₁ : DbState) (dl : List (String × PyVal))
    (r : Res Unit) (hro : s.db.readonly = false)
    (hglob : Database.globalinfo s = .ok dl s)
    (h1 : updateKeyFromData "ValidSets" maxRowid (dl.map Prod.fst) s = .ok () t₁)
    (h2 : updateKeyFromData "TRAI" maxTrai (dl.map Prod.fst) t₁ = r) :
    Database.update_globalinfo s = r := by
  rw [update_globalinfo_run s dl hro hglob, h1]
  exact h2

theorem contains_of_mem (l : List String) (a : String) (h : a ∈ l) :
    l.contains a = true :=
  List.elem_eq_true_of_mem h

/-- Full characterisation of a successful `_update_globalinfo` run, shared by
the global-summary theorems. -/
theorem update_globalinfo_spec (s : DbState) (cols : List String)
    (rows : List DataRow) (kvrows : List (String × SQLVal))
    (dl : List (String × PyVal))
    (hro : s.db.readonly = false) (hconn : s.db.connected = true)
    (hmain : s.store.table s.db.table_main = some (.data cols rows))
    (hgi : s.store.table s.db.table_globalinfo = some (.kv kvrows))
    (hdec : decodeRows kvrows = .ok dl) :
    ∃ s' kv₂,
      Database.update_globalinfo s = .ok () s' ∧
      s'.db = s.db ∧
      s'.store.table s.db.table_globalinfo = some (.kv kv₂) ∧
      (∀ name, name ≠ s.db.table_globalinfo → s'.store.table name = s.store.table name) ∧
      kv₂.map Prod.fst = kvrows.map Prod.fst ∧
      (∀ p ∈ kv₂, p.1 = "ValidSets" → p.2 = maxRowid rows) ∧
      (∀ p ∈ kv₂, p.1 = "TRAI" → p.2 = maxTrai rows) ∧
      (∀ (i : Nat) (p : String × SQLVal), kvrows[i]? = some p →
        p.1 ≠ "ValidSets" → p.1 ≠ "TRAI" → kv₂[i]? = some p) ∧
      (∀ p ∈ kv₂, p.1 ≠ "ValidSets" → p.1 ≠ "TRAI" → p ∈ kvrows) := by
  have hkeys : dl.map Prod.fst = kvrows.map Prod.fst := decodeRows_keys kvrows dl hdec
  have hglob := globalinfo_run s kvrows dl hconn hgi hdec
  have hne := table_main_ne_globalinfo s.db
  by_cases hvs : (kvrows.map Prod.fst).contains "ValidSets" = true
  · have h1 := updateKeyFromData_pos "ValidSets" maxRowid (dl.map Prod.fst) s cols rows
      (by rw [hkeys]; exact hvs) hmain
    have hmain₁ : (s.store.mapTable s.db.table_globalinfo
        (applyKvSet "ValidSets" (maxRowid rows))).table s.db.table_main =
        some (.data cols rows) := by
      rw [Store.table_mapTable, if_neg hne]
      exact hmain
    by_cases htr : (kvrows.map Prod.fst).contains "TRAI" = true
    · have h2 := updateKeyFromData_pos "TRAI" maxTrai (dl.map Prod.fst)
        ⟨s.db, s.store.mapTable s.db.table_globalinfo
          (applyKvSet "ValidSets" (maxRowid rows))⟩ cols rows
        (by rw [hkeys]; exact htr) hmain₁
      refine ⟨_, setKv (setKv kvrows "ValidSets" (maxRowid rows)) "TRAI" (maxTrai rows),
        update_globalinfo_run_ok s _ dl _ hro hglob h1 h2, rfl, ?_, ?_, ?_, ?_, ?_, ?_, ?_⟩
      · show ((s.store.mapTable s.db.table_globalinfo _).mapTable s.db.table_globalinfo _).table
          s.db.table_globalinfo = _
        rw [Store.table_mapTable, if_pos rfl, Store.table_mapTable, if_pos rfl, hgi]
        rfl
      · intro name hname
        show ((s.store.mapTable _ _).mapTable _ _).table name = _
        rw [Store.table_mapTable, if_neg hname, Store.table_mapTable, if_neg hname]
      · rw [setKv_keys, setKv_keys]
      · intro p hp hk
        have hpne : p.1 ≠ "TRAI" := by rw [hk]; decide
        exact setKv_val _ _ _ p (setKv_mem_of_ne _ _ _ p hp hpne) hk
      · intro p hp hk
        exact setKv_val _ _ _ p hp hk
      · intro i p hip hv ht
        exact setKv_getElem _ _ _ i p (setKv_getElem _ _ _ i p hip hv) ht
      · intro p hp hv ht
        exact setKv_mem_of_ne _ _ _ p (setKv_mem_of_ne _ _ _ p hp ht) hv
    · rw [Bool.not_eq_true] at htr
      have h2 := updateKeyFromData_neg "TRAI" maxTrai (dl.map Prod.fst)
        ⟨s.db, s.store.mapTable s.db.table_globalinfo
          (applyKvSet "ValidSets" (maxRowid rows))⟩ (by rw [hkeys]; exact htr)
      refine ⟨_, setKv kvrows "ValidSets" (maxRowid rows),
        update_globalinfo_run_ok s _ dl _ hro hglob h1 h2, rfl, ?_, ?_, ?_, ?_, ?_, ?_, ?_⟩
      · show (s.store.mapTable s.db.table_globalinfo _).table s.db.table_globalinfo = _
        rw [Store.table_mapTable, if_pos rfl, hgi]
        rfl
      · intro name hname
        show (s.store.mapTable _ _).table name = _
        rw [Store.table_mapTable, if_neg hname]
      · rw [setKv_keys]
      · intro p hp hk
        exact setKv_val _ _ _ p hp hk
      · intro p hp hk
        exfalso
        have hpne : p.1 ≠ "ValidSets" := by rw [hk]; decide
        have hp' := setKv_mem_of_ne _ _ _ p hp hpne
        have hm : p.1 ∈ kvrows.map Prod.fst := List.mem_map_of_mem Prod.fst hp'
        rw [hk] at hm
        rw [contains_of_mem _ _ hm] at htr
        cases htr
      · intro i p hip hv _
        exact setKv_getElem _ _ _ i p hip hv
      · intro p hp hv _
        exact setKv_mem_of_ne _ _ _ p hp hv
  · rw [Bool.not_eq_true] at hvs
    have h1 := updateKeyFromData_neg "ValidSets" maxRowid (dl.map Prod.fst) s
      (by rw [hkeys]; exact hvs)
    by_cases htr : (kvrows.map Prod.fst).contains "TRAI" = true
    · have h2 := updateKeyFromData_pos "TRAI" maxTrai (dl.map Prod.fst) s cols rows
        (by rw [hkeys]; exact htr) hmain
      refine ⟨_, setKv kvrows "TRAI" (maxTrai rows),
        update_globalinfo_run_ok s _ dl _ hro hglob h1 h2, rfl, ?_, ?_, ?_, ?_, ?_, ?_, ?_⟩
      · show (s.store.mapTable s.db.table_globalinfo _).table s.db.table_globalinfo = _
        rw [Store.table_mapTable, if_pos rfl, hgi]
        rfl
      · intro name hname
        show (s.store.mapTable _ _).table name = _
        rw [Store.table_mapTable, if_neg hname]
      · rw [setKv_keys]
      · intro p hp hk
        exfalso
        have hpne : p.1 ≠ "TRAI" := by rw [hk]; decide
        have hp' := setKv_mem_of_ne _ _ _ p hp hpne
        have hm : p.1 ∈ kvrows.map Prod.fst := List.mem_map_of_mem Prod.fst hp'
        rw [hk] at hm
        rw [contains_of_mem _ _ hm] at hvs
        cases hvs
      · intro p hp hk
        exact setKv_val _ _ _ p hp hk
      · intro i p hip _ ht
        exact setKv_getElem _ _ _ i p hip ht
      · intro p hp _ ht
        exact setKv_mem_of_ne _ _ _ p hp ht
    · rw [Bool.not_eq_true] at htr
      have h2 := updateKeyFromData_neg "TRAI" maxTrai (dl.map Prod.fst) s
        (by rw [hkeys]; exact htr)
      refine ⟨s, kvrows,
        update_globalinfo_run_ok s s dl _ hro hglob h1 h2, rfl, hgi,
        fun _ _ => rfl, rfl, ?_, ?_, fun _ _ h _ _ => h, fun _ hp _ _ => hp⟩
      · intro p hp hk
        exfalso
        have hm : p.1 ∈ kvrows.map Prod.fst := List.mem_map_of_mem Prod.fst hp
        rw [hk] at hm
        rw [contains_of_mem _ _ hm] at hvs
        cases hvs
      · intro p hp hk
        exfalso
        have hm : p.1 ∈ kvrows.map Prod.fst := List.mem_map_of_mem Prod.fst hp
        rw [hk] at hm
        rw [contains_of_mem _ _ hm] at htr
        cases htr

/-! Part: Parameter-table lemmas -/

/-- The `ID` value of a parameter row, when present. -/
def rowIdVal (r : List (String × SQLVal)) : Option SQLVal :=
  (r.find? fun p => p.1 = "ID").map Prod.snd

/-- The last parameter row whose `ID` equals `k` (Python dict semantics:
a later row with a duplicate id wins). -/
def lastRowWithId (rows : List (List (String × SQLVal))) (k : SQLVal) :
    Option (List (String × SQLVal)) :=
  rows.reverse.find? fun r => rowIdVal r = some k

theorem buildParams_spec (rows : List (List (String × SQLVal)))
    (h : ∀ r ∈ rows, (r.find? fun p => p.1 = "ID").isSome = true) :
    ∃ tbl, buildParams rows = some tbl ∧
      List.Forall₂ (fun r q => rowIdVal r = some q.1 ∧
        q.2 = r.eraseP fun p => p.1 = "ID") rows tbl := by
  induction rows with
  | nil => exact ⟨[], rfl, List.Forall₂.nil⟩
  | cons r rest ih =>
    obtain ⟨tbl, htbl, hrel⟩ := ih fun q hq => h q (List.mem_cons_of_mem _ hq)
    have hr := h r (List.mem_cons_self _ _)
    cases hf : r.find? (fun p => p.1 = "ID") with
    | none => rw [hf] at hr; cases hr
    | some p =>
      refine ⟨(p.2, r.eraseP fun q => q.1 = "ID") :: tbl, ?_, ?_⟩
      · unfold buildParams
        rw [hf, htbl]
      · exact List.Forall₂.cons ⟨by rw [rowIdVal, hf]; rfl, rfl⟩ hrel

theorem paramFind_corr (l₁ : List (List (String × SQLVal)))
    (l₂ : List (SQLVal × List (String × SQLVal))) (k : SQLVal)
    (h : List.Forall₂ (fun r q => rowIdVal r = some q.1 ∧
      q.2 = r.eraseP fun p => p.1 = "ID") l₁ l₂) :
    (l₂.find? fun q => q.1 = k).map Prod.snd =
      (l₁.find? fun r => rowIdVal r = some k).map
        (fun r => r.eraseP fun p => p.1 = "ID") := by
  induction h with
  | nil => rfl
  | @cons r q l₁' l₂' hrq hrest ih =>
    by_cases hk : q.1 = k
    · rw [List.find?_cons_of_pos _ (by simp [hk]),
        List.find?_cons_of_pos _ (by simp [hrq.1, hk])]
      simp [hrq.2]
    · rw [List.find?_cons_of_neg _ (by simp [hk]),
        List.find?_cons_of_neg _ (by simp [hrq.1, hk])]
      exact ih

theorem paramDictGet_eq_lastRow (rows : List (List (String × SQLVal)))
    (tbl : List (SQLVal × List (String × SQLVal))) (k : SQLVal)
    (h : List.Forall₂ (fun r q => rowIdVal r = some q.1 ∧
      q.2 = r.eraseP fun p => p.1 = "ID") rows tbl) :
    paramDictGet tbl k =
      (lastRowWithId rows k).map (fun r => r.eraseP fun p => p.1 = "ID") := by
  unfold paramDictGet lastRowWithId
  exact paramFind_corr rows.reverse tbl.reverse k (List.forall₂_reverse_iff.mpr h)

theorem parameter_table_run (s : DbState) (rows : List (List (String × SQLVal)))
    (tbl : List (SQLVal × List (String × SQLVal)))
    (hconn : s.db.connected = true)
    (hp : s.store.table s.db.table_params = some (.params rows))
    (hb : buildParams rows = some tbl) :
    Database.parameter_table s = .ok tbl s := by
  simp [Database.parameter_table, hconn, hp, hb]

theorem parameter_run (s s' : DbState) (pid : Int)
    (tbl : List (SQLVal × List (String × SQLVal)))
    (hpt : Database.parameter_table s = .ok tbl s') :
    Database.parameter pid s =
      match paramDictGet tbl (.int pid) with
      | some fields => .ok fields s'
      | Option.none => .err (.notFound pid s.db.table_params) s' := by
  unfold Database.parameter
  rw [hpt]

/-- Claim C9: with the handle connected and every parameter row carrying an
`ID` column, `parameter(id)` on an id absent from the parameter table fails
with `NotFound` carrying that id and the parameter table's name, and on a
present id returns that record's field mapping with the `ID` column removed
(later duplicate ids shadowing earlier ones, as a Python dict does). -/
theorem parameter_lookup (s : DbState) (pid : Int)
    (rows : List (List (String × SQLVal)))
    (hconn : s.db.connected = true)
    (hp : s.store.table s.db.table_params = some (.params rows))
    (hids : ∀ r ∈ rows, (r.find? fun p => p.1 = "ID").isSome = true) :
    (lastRowWithId rows (.int pid) = Option.none →
      Database.parameter pid s = .err (.notFound pid s.db.table_params) s) ∧
    (∀ r, lastRowWithId rows (.int pid) = some r →
      Database.parameter pid s = .ok (r.eraseP fun p => p.1 = "ID") s) := by
  obtain ⟨tbl, htbl, hrel⟩ := buildParams_spec rows hids
  have hpt := parameter_table_run s rows tbl hconn hp htbl
  have hget := paramDictGet_eq_lastRow rows tbl (.int pid) hrel
  constructor
  · intro hnone
    rw [parameter_run s s pid tbl hpt, hget, hnone]
    rfl
  · intro r hr
    rw [parameter_run s s pid tbl hpt, hget, hr]
    rfl

theorem parameter_lookup_witness :
    ((⟨⟨"t.pridb", true, "pr", true⟩, demoStore⟩ : DbState).db.connected = true ∧
     Store.table demoStore (Database.table_params ⟨"t.pridb", true, "pr", true⟩) =
       some (.params [[("ID", .int 1), ("Gain", .int 4)]]) ∧
     (∀ r ∈ [[("ID", SQLVal.int 1), ("Gain", SQLVal.int 4)]],
       (r.find? fun p => p.1 = "ID").isSome = true)) ∧
    Database.parameter 7 ⟨⟨"t.pridb", true, "pr", true⟩, demoStore⟩ =
      .err (.notFound 7 (Database.table_params ⟨"t.pridb", true, "pr", true⟩))
        ⟨⟨"t.pridb", true, "pr", true⟩, demoStore⟩ ∧
    Database.parameter 1 ⟨⟨"t.pridb", true, "pr", true⟩, demoStore⟩ =
      .ok ([[("ID", SQLVal.int 1), ("Gain", SQLVal.int 4)]].get ⟨0, by decide⟩
        |>.eraseP fun p => p.1 = "ID") ⟨⟨"t.pridb", true, "pr", true⟩, demoStore⟩ :=
  ⟨⟨rfl, by decide, by decide⟩,
   (parameter_lookup ⟨⟨"t.pridb", true, "pr", true⟩, demoStore⟩ 7
     [[("ID", .int 1), ("Gain", .int 4)]] rfl (by decide) (by decide)).1 (by decide),
   (parameter_lookup ⟨⟨"t.pridb", true, "pr", true⟩, demoStore⟩ 1
     [[("ID", .int 1), ("Gain", .int 4)]] rfl (by decide) (by decide)).2 _ (by decide)⟩

/-- Claim C4: on a write handle with a readable global-info table,
`_update_globalinfo` returns normally, leaves the handle attributes and every
other table untouched, never inserts or deletes global-info keys (the key
column is unchanged entry by entry), rewrites every entry whose key is
`ValidSets` to the maximum row identifier of the main data table and every
entry whose key is `TRAI` to the maximum of that table's `TRAI` column, and
leaves every entry with any other key exactly as it was — in particular keys
absent from the table stay absent. -/
theorem update_globalinfo_exact (s : DbState) (cols : List String)
    (rows : List DataRow) (kvrows : List (String × SQLVal))
    (dl : List (String × PyVal))
    (hro : s.db.readonly = false) (hconn : s.db.connected = true)
    (hmain : s.store.table s.db.table_main = some (.data cols rows))
    (hgi : s.store.table s.db.table_globalinfo = some (.kv kvrows))
    (hdec : decodeRows kvrows = .ok dl) :
    ∃ s' kv₂,
      Database.update_globalinfo s = .ok () s' ∧
      s'.db = s.db ∧
      s'.store.table s.db.table_globalinfo = some (.kv kv₂) ∧
      (∀ name, name ≠ s.db.table_globalinfo → s'.store.table name = s.store.table name) ∧
      kv₂.map Prod.fst = kvrows.map Prod.fst ∧
      (∀ p ∈ kv₂, p.1 = "ValidSets" → p.2 = maxRowid rows) ∧
      (∀ p ∈ kv₂, p.1 = "TRAI" → p.2 = maxTrai rows) ∧
      (∀ (i : Nat) (p : String × SQLVal), kvrows[i]? = some p →
        p.1 ≠ "ValidSets" → p.1 ≠ "TRAI" → kv₂[i]? = some p) := by
  obtain ⟨s', kv₂, h1, h2, h3, h4, h5, h6, h7, h8, _⟩ :=
    update_globalinfo_spec s cols rows kvrows dl hro hconn hmain hgi hdec
  exact ⟨s', kv₂, h1, h2, h3, h4, h5, h6, h7, h8⟩

theorem update_globalinfo_exact_witness :
    ∃ s' kv₂,
      Database.update_globalinfo ⟨⟨"t.pridb", false, "pr", true⟩, demoStore⟩ = .ok () s' ∧
      s'.db = (⟨⟨"t.pridb", false, "pr", true⟩, demoStore⟩ : DbState).db ∧
      s'.store.table (Database.table_globalinfo ⟨"t.pridb", false, "pr", true⟩) =
        some (.kv kv₂) ∧
      (∀ name, name ≠ Database.table_globalinfo ⟨"t.pridb", false, "pr", true⟩ →
        s'.store.table name = Store.table demoStore name) ∧
      kv₂.map Prod.fst =
        ([("ValidSets", SQLVal.int 2), ("TRAI", SQLVal.int 1)] :
          List (String × SQLVal)).map Prod.fst ∧
      (∀ p ∈ kv₂, p.1 = "ValidSets" →
        p.2 = maxRowid [⟨1, some 1⟩, ⟨2, Option.none⟩]) ∧
      (∀ p ∈ kv₂, p.1 = "TRAI" →
        p.2 = maxTrai [⟨1, some 1⟩, ⟨2, Option.none⟩]) ∧
      (∀ (i : Nat) (p : String × SQLVal),
        ([("ValidSets", SQLVal.int 2), ("TRAI", SQLVal.int 1)] :
          List (String × SQLVal))[i]? = some p →
        p.1 ≠ "ValidSets" → p.1 ≠ "TRAI" → kv₂[i]? = some p) :=
  update_globalinfo_exact ⟨⟨"t.pridb", false, "pr", true⟩, demoStore⟩
    ["SetID", "TRAI"] [⟨1, some 1⟩, ⟨2, Option.none⟩]
    [("ValidSets", .int 2), ("TRAI", .int 1)]
    [("ValidSets", PyVal.int 2), ("TRAI", PyVal.int 1)]
    rfl rfl (by decide) (by decide) rfl

/-! Part: Close / reopen of a write handle -/

theorem close_run_write (s t : DbState) (hconn : s.db.connected = true)
    (hro : s.db.readonly = false)
    (hupd : Database.update_globalinfo s = .ok () t) :
    Database.close s = .ok () ⟨{ t.db with connected := false }, t.store⟩ := by
  simp [Database.close, hconn, hro, hupd]

theorem init_ok (fn pre : String) (st : Store)
    (hc : (st.catalog.map Prod.fst).contains (pre ++ "_data") = true) :
    Database.init fn pre true Option.none (some st) = .ok ⟨⟨fn, true, pre, true⟩, st⟩ := by
  simp only [Database.init, extOk, sqliteConnect]
  rw [hc]
  simp

theorem rows_run (s : DbState) (cols : List String) (drows : List DataRow)
    (hconn : s.db.connected = true)
    (hmain : s.store.table s.db.table_main = some (.data cols drows)) :
    Database.rows s = .ok (drows.length : Int) s := by
  simp [Database.rows, hconn, hmain]

theorem maxTrai_decodes (rows : List DataRow) :
    ∃ v, try_convert_string (sqlValToStr (maxTrai rows)) = .ok v := by
  unfold maxTrai
  cases rows.filterMap DataRow.trai with
  | nil => exact ⟨PyVal.none, try_convert_null⟩
  | cons y ys => exact ⟨.int (listMax1 y ys), try_convert_int _⟩

theorem decodeRows_mem (l : List (String × SQLVal)) (dl : List (String × PyVal))
    (h : decodeRows l = .ok dl) :
    ∀ p ∈ l, ∃ v, try_convert_string (sqlValToStr p.2) = .ok v := by
  induction l generalizing dl with
  | nil => intro p hp; cases hp
  | cons q rest ih =>
    obtain ⟨k, v⟩ := q
    unfold decodeRows at h
    cases h1 : try_convert_string (sqlValToStr v) with
    | error e => rw [h1] at h; cases h
    | ok pv =>
      rw [h1] at h
      cases h2 : decodeRows rest with
      | error e => rw [h2] at h; cases h
      | ok tail =>
        intro p hp
        rcases List.mem_cons.mp hp with hp | hp
        · exact ⟨pv, by rw [hp]; exact h1⟩
        · exact ih tail h2 p hp

/-- Claim C3 amended: for a connected write handle whose global-info table
decodes and contains the key `ValidSets` and whose main data table is
non-empty, `close()` runs the summary recompute and commits before physically
closing, so reopening the file read-only and reading `globalInfo()` yields for
`ValidSets` the maximum rowid of the main data table — which equals the row
count only when the rowids are contiguous from 1 — while `rows()` yields the
actual row count. -/
theorem close_reopen_validsets_max_rowid
    (db : Database) (st : Store) (cols : List String)
    (r0 : DataRow) (rs : List DataRow) (kvrows : List (String × SQLVal))
    (dl : List (String × PyVal))
    (hro : db.readonly = false) (hconn : db.connected = true)
    (hmain : st.table db.table_main = some (.data cols (r0 :: rs)))
    (hgi : st.table db.table_globalinfo = some (.kv kvrows))
    (hdec : decodeRows kvrows = .ok dl)
    (hvs : (kvrows.map Prod.fst).contains "ValidSets" = true) :
    ∃ s' s₂ dl₂,
      Database.close ⟨db, st⟩ = .ok () s' ∧
      s'.db.connected = false ∧
      Database.init db.filename db.pre true Option.none (some s'.store) = .ok s₂ ∧
      Database.globalinfo s₂ = .ok dl₂ s₂ ∧
      pyDictGet dl₂ "ValidSets" =
        some (.int (listMax1 r0.rowid (rs.map DataRow.rowid))) ∧
      Database.rows s₂ = .ok (((r0 :: rs).length : Nat) : Int) s₂ := by
  have hne := table_main_ne_globalinfo db
  obtain ⟨t, kv₂, hupd, htdb, htgi, hother, hkeys₂, hvsval, htrval, _, hmem₂⟩ :=
    update_globalinfo_spec ⟨db, st⟩ cols (r0 :: rs) kvrows dl hro hconn hmain hgi hdec
  have hclose := close_run_write ⟨db, st⟩ t hconn hro hupd
  have hmain₂ : t.store.table db.table_main = some (.data cols (r0 :: rs)) := by
    rw [hother db.table_main hne]
    exact hmain
  have hcont := contains_of_table_some t.store db.table_main _ hmain₂
  have hinit := init_ok db.filename db.pre t.store hcont
  have hdecable : ∀ p ∈ kv₂, ∃ v, try_convert_string (sqlValToStr p.2) = .ok v := by
    intro p hp
    by_cases hpv : p.1 = "ValidSets"
    · refine ⟨.int (listMax1 r0.rowid (rs.map DataRow.rowid)), ?_⟩
      rw [hvsval p hp hpv]
      exact try_convert_int _
    · by_cases hpt : p.1 = "TRAI"
      · obtain ⟨v, hv⟩ := maxTrai_decodes (r0 :: rs)
        refine ⟨v, ?_⟩
        rw [htrval p hp hpt]
        exact hv
      · exact decodeRows_mem kvrows dl hdec p (hmem₂ p hp hpv hpt)
  obtain ⟨dl₂, hdl₂⟩ := decodeRows_ok_of_pointwise kv₂ hdecable
  refine ⟨⟨{ t.db with connected := false }, t.store⟩,
    ⟨⟨db.filename, true, db.pre, true⟩, t.store⟩, dl₂, hclose, rfl, hinit, ?_, ?_, ?_⟩
  · exact globalinfo_run _ kv₂ dl₂ rfl htgi hdl₂
  · apply pyDictGet_of_all
    · rw [decodeRows_keys kv₂ dl₂ hdl₂, hkeys₂]
      exact List.mem_of_elem_eq_true hvs
    · intro q hq hqk
      obtain ⟨p, hp, hp1, hp2⟩ := decodeRows_val kv₂ dl₂ hdl₂ q hq
      have hpm : p.2 = maxRowid (r0 :: rs) := hvsval p hp (by rw [hp1]; exact hqk)
      rw [hpm] at hp2
      have hmr : maxRowid (r0 :: rs) = .int (listMax1 r0.rowid (rs.map DataRow.rowid)) := rfl
      rw [hmr, try_convert_int] at hp2
      exact (Except.ok.inj hp2).symm
  · exact rows_run _ cols (r0 :: rs) rfl hmain₂

/-- Store with non-contiguous rowids 1, 2 and 5 in its main data table. -/
def gapStore : Store :=
  ⟨[("pr_data", .data ["SetID"] [⟨1, Option.none⟩, ⟨2, Option.none⟩, ⟨5, Option.none⟩]),
    ("pr_globalinfo", .kv [("ValidSets", SQLVal.int 0)])]⟩

/-- The store `gapStore` after the global-summary recompute. -/
def gapStoreAfter : Store :=
  ⟨[("pr_data", .data ["SetID"] [⟨1, Option.none⟩, ⟨2, Option.none⟩, ⟨5, Option.none⟩]),
    ("pr_globalinfo", .kv [("ValidSets", SQLVal.int 5)])]⟩

/-- Claim C3 counterexample: closing a write handle over a main data table
whose three rows have rowids 1, 2 and 5 stores `MAX(rowid) = 5` into
`ValidSets`; reopening read-only then reads back 5 while the row count is 3,
so the value does not equal the row count as the claim states. -/
theorem close_reopen_validsets_not_rowcount :
    Database.close ⟨⟨"f.pridb", false, "pr", true⟩, gapStore⟩ =
      .ok () ⟨⟨"f.pridb", false, "pr", false⟩, gapStoreAfter⟩ ∧
    Database.init "f.pridb" "pr" true Option.none (some gapStoreAfter) =
      .ok ⟨⟨"f.pridb", true, "pr", true⟩, gapStoreAfter⟩ ∧
    Database.globalinfo ⟨⟨"f.pridb", true, "pr", true⟩, gapStoreAfter⟩ =
      .ok [("ValidSets", PyVal.int 5)] ⟨⟨"f.pridb", true, "pr", true⟩, gapStoreAfter⟩ ∧
    Database.rows ⟨⟨"f.pridb", true, "pr", true⟩, gapStoreAfter⟩ =
      .ok 3 ⟨⟨"f.pridb", true, "pr", true⟩, gapStoreAfter⟩ ∧
    pyDictGet [("ValidSets", PyVal.int 5)] "ValidSets" ≠ some (PyVal.int 3) := by
  decide

theorem close_reopen_validsets_max_rowid_witness :
    ∃ s' s₂ dl₂,
      Database.close ⟨⟨"f.pridb", false, "pr", true⟩, gapStore⟩ = .ok () s' ∧
      s'.db.connected = false ∧
      Database.init "f.pridb" "pr" true Option.none (some s'.store) = .ok s₂ ∧
      Database.globalinfo s₂ = .ok dl₂ s₂ ∧
      pyDictGet dl₂ "ValidSets" = some (.int 5) ∧
      Database.rows s₂ = .ok 3 s₂ :=
  close_reopen_validsets_max_rowid ⟨"f.pridb", false, "pr", true⟩ gapStore ["SetID"]
    ⟨1, Option.none⟩ [⟨2, Option.none⟩, ⟨5, Option.none⟩]
    [("ValidSets", SQLVal.int 0)] [("ValidSets", PyVal.int 0)]
    rfl rfl (by decide) (by decide) rfl (by decide)
